import Mathlib

/-!
Verification development for the `optimizations` package, a thin adaptation
layer around the pyBNF fitting framework.  The definitions below are shallow
embeddings of the functions in `src/optimizations/custom_classes.py` and
`src/optimizations/interface.py`; numeric array entries are modelled as
rationals, Python dictionaries as association lists, Python exceptions as
`Except`, and `concurrent.futures.Future` as an explicit resolved-state
record.
-/

/-! ### Decimal formatting (Python `f"{i:0{10}d}"`)

`custom_classes.py` generates column and parameter names with the format
string `f"x{i:0{10}d}"`: the decimal expansion of `i`, left-padded with `'0'`
to a minimum width of 10 characters (numbers with more than 10 digits are
printed in full, unpadded).  We model this with an explicit big-endian digit
extraction of width `max 10 (number of decimal digits)`. -/

/-- The character for a single decimal digit (Python digit rendering). -/
def digitChar : ℕ → Char
  | 0 => '0'
  | 1 => '1'
  | 2 => '2'
  | 3 => '3'
  | 4 => '4'
  | 5 => '5'
  | 6 => '6'
  | 7 => '7'
  | 8 => '8'
  | 9 => '9'
  | _ => '*'

/-- Fuel-driven count of decimal digits (`len(str n)` for a natural `n`);
the fuel only needs to exceed the digit count, and callers pass `n` itself. -/
def numDigitsAux : ℕ → ℕ → ℕ
  | 0, _ => 1
  | fuel + 1, n => if n < 10 then 1 else numDigitsAux fuel (n / 10) + 1

/-- Number of characters in the decimal expansion of `n` (so `numDigits 0 = 1`). -/
def numDigits (n : ℕ) : ℕ := numDigitsAux n n

/-- The `w` low decimal digits of `n`, most significant first (big-endian).
For `n < 10^w` this is the zero-padded width-`w` decimal expansion of `n`. -/
def decDigitsBE : ℕ → ℕ → List ℕ
  | 0, _ => []
  | w + 1, n => n / 10 ^ w :: decDigitsBE w (n % 10 ^ w)

/-- Python `f"{n:0{10}d}"` as a character list: the decimal expansion of `n`
zero-padded to width 10 (wider numbers are printed in full). -/
def py010 (n : ℕ) : List Char := (decDigitsBE (max 10 (numDigits n)) n).map digitChar

/-- Column name `f"x{i:0{10}d}"` for input column `i`. -/
def xname (i : ℕ) : String := ⟨'x' :: py010 i⟩

/-- Column name `f"y{i:0{10}d}"` for output column `i`. -/
def yname (i : ℕ) : String := ⟨'y' :: py010 i⟩

/-- Parameter name `f"v{i:0{10}d}__FREE"` (used by `NpModel` and
`UniformParam.to_config_key_value_pair`). -/
def vname (i : ℕ) : String := ⟨'v' :: (py010 i ++ "__FREE".data)⟩

/-- Python `s.startswith(pre)`: `pre` is a prefix of `s` (code-point wise). -/
def strStartsWith (s pre : String) : Bool := pre.data.isPrefixOf s.data

/-- Python `s < t` on strings: lexicographic comparison of code points,
a proper prefix being smaller. -/
def pyStrLtChars : List Char → List Char → Bool
  | [], [] => false
  | [], _ :: _ => true
  | _ :: _, [] => false
  | a :: s, b :: t =>
    if a.toNat < b.toNat then true
    else if b.toNat < a.toNat then false
    else pyStrLtChars s t

/-- Python `s < t` on strings. -/
def pyStrLt (s t : String) : Bool := pyStrLtChars s.data t.data

/-- Python `enumerate(l, start)` as a list of (index, element) pairs. -/
def pyEnumerate : List α → ℕ → List (ℕ × α)
  | [], _ => []
  | a :: t, start => (start, a) :: pyEnumerate t (start + 1)

/-! ### `CustomData` (`custom_classes.py`, class `CustomData`)

A pyBNF `Data` object holds a 2D numeric array together with a
column-name-to-index dictionary (`cols`) and its inverse (`headers`), plus
the name of the independent-variable column (`indvar`).  Rows are lists of
rationals; the two dictionaries are derived from the ordered column-name
list exactly as the constructor builds them via `enumerate`. -/

structure CustomData where
  _data : List (List ℚ)
  colnames : List String
  indvar : String
deriving Repr, DecidableEq

/-- `out.headers = {i: c for i, c in enumerate(colnames)}` (index → name). -/
def CustomData.headers (d : CustomData) : List (ℕ × String) :=
  pyEnumerate d.colnames 0

/-- `out.cols = {c: i for i, c in enumerate(colnames)}` (name → index). -/
def CustomData.cols (d : CustomData) : List (String × ℕ) :=
  (pyEnumerate d.colnames 0).map (fun p => (p.2, p.1))

/-! ### numpy arrays

`CustomData.from_x_and_y` accepts numpy arrays of any dimensionality but
raises on anything other than 1D or 2D (after promoting 1D input to a single
2D column).  Arrays of dimension ≥ 3 are rejected before their entries are
ever read, so the model records only their shape. -/

inductive NpArr where
  /-- A 1D array (shape `(n,)`). -/
  | d1 (v : List ℚ)
  /-- A 2D array, as a list of rows (shape `(nrows, ncols)`). -/
  | d2 (m : List (List ℚ))
  /-- An array of dimension `3 + rest.length` with shape `s0 :: s1 :: s2 :: rest`. -/
  | dN (s0 s1 s2 : ℕ) (rest : List ℕ)
deriving Repr, DecidableEq

/-- `arr.ndim`. -/
def NpArr.ndim : NpArr → ℕ
  | .d1 _ => 1
  | .d2 _ => 2
  | .dN _ _ _ rest => 3 + rest.length

/-- `arr.shape[0]`. -/
def NpArr.rows : NpArr → ℕ
  | .d1 v => v.length
  | .d2 m => m.length
  | .dN s0 _ _ _ => s0

/-- `np.atleast_2d(arr).T` applied when `arr.ndim == 1`: a 1D vector becomes
a single-column 2D array; other arrays are unchanged. -/
def NpArr.promote : NpArr → NpArr
  | .d1 v => .d2 (v.map (fun a => [a]))
  | a => a

/-- The rows of a (≤ 2)-dimensional array; `[]` on higher dimensions, which
`from_x_and_y` rejects before reading entries. -/
def NpArr.to2d : NpArr → List (List ℚ)
  | .d1 v => v.map (fun a => [a])
  | .d2 m => m
  | .dN _ _ _ _ => []

/-- The table-building tail of `CustomData.from_x_and_y` (lines 82–104):
`ncols` from `shape[1]`, dummy time column `np.arange(nrows)`, row-wise
`np.hstack([t, x, y])`, and the zero-padded column names. -/
def CustomData.build_from_x_y (mx my : List (List ℚ)) : CustomData :=
  let ncols_x := (mx.headD []).length
  let ncols_y := (my.headD []).length
  let xy := (pyEnumerate (mx.zip my) 0).map
    (fun p => ((p.1 : ℚ)) :: (p.2.1 ++ p.2.2))
  let colnames :=
    "time" :: ((List.range ncols_x).map xname ++ (List.range ncols_y).map yname)
  { _data := xy, colnames := colnames, indvar := "time" }

/-- `CustomData.from_x_and_y(x, y)` (lines 53–104): promote 1D inputs to a
2D column, raise `ValueError` on row-count mismatch, then on dimensionality
greater than 2, and otherwise assemble the labeled table. -/
def CustomData.from_x_and_y (x y : NpArr) : Except String CustomData :=
  let x' := x.promote
  let y' := y.promote
  if x'.rows ≠ y'.rows then
    .error "different number of observations between dependent and independent variables"
  else if 2 < x'.ndim ∨ 2 < y'.ndim then
    .error "wrong dimensionality (>2)"
  else
    .ok (CustomData.build_from_x_y x'.to2d y'.to2d)

/-- `CustomData.get_data_arr` (lines 106–109): select, in index order, the
columns whose name starts with `"x"`, and return the sub-matrix
`self._data[:, data_indxs]`. -/
def CustomData.get_data_arr (d : CustomData) : List (List ℚ) :=
  let data_indxs := (d.headers.filter (fun p => strStartsWith p.2 "x")).map Prod.fst
  d._data.map (fun row => data_indxs.map (fun i => row.getD i 0))

/-! ### `NpModel` (`custom_classes.py`, class `NpModel`)

Wraps a user-supplied numeric function as a pyBNF model.  `pybnf.pset.PSet`
is external to this repository; the model only ever stores it and hands it
back, so it is embedded as an ordered parameter vector.  The source field
`fun` is a Lean keyword and is embedded as `func`. -/

/-- Model of the external `pybnf.pset.PSet`: an ordered parameter vector
(the name `PSet` itself is taken by Mathlib). -/
def ParamSet : Type := List ℚ

structure NpModel where
  func : List (List ℚ) → List ℚ → List (List ℚ)
  data : List (List ℚ)
  pset : Option ParamSet
  suffixes : List (String × String)
  mutants : List String
  file_path : String
  name : String
  param_names : List String

/-- `NpModel.__init__` (lines 113–129): store the function, reduce the
dataset to its input sub-matrix, and fix the bookkeeping fields. -/
def NpModel.init (func : List (List ℚ) → List ℚ → List (List ℚ))
    (data : CustomData) (n_params : ℕ) (pset : Option ParamSet) : NpModel :=
  { func := func
    data := data.get_data_arr
    pset := pset
    suffixes := [("simulate", "_data")]
    mutants := []
    file_path := "_optimization"
    name := "_optimization"
    param_names := (List.range n_params).map vname }

/-- `copy.deepcopy(self)`: an independent structural copy.  All fields of
the embedding are immutable values, so the deep copy is the value itself,
rebuilt field by field. -/
def NpModel.deepcopy (m : NpModel) : NpModel :=
  { func := m.func, data := m.data, pset := m.pset, suffixes := m.suffixes,
    mutants := m.mutants, file_path := m.file_path, name := m.name,
    param_names := m.param_names }

/-- `NpModel.copy_with_param_set` (lines 131–134): deep-copy the model and
bind the copy to the given parameter set. -/
def NpModel.copy_with_param_set (m : NpModel) (pset : ParamSet) : NpModel :=
  let new := m.deepcopy
  { new with pset := some pset }

/-! ### `CustomConfiguration` validation (`custom_classes.py`, lines 175–204)

`CustomConfiguration.__init__` first validates its input dictionary and then
hands over to the external framework's loading machinery
(`_load_exp_data`, `_load_models`, …).  We embed the validation prefix,
which is all the examined claims are about.  Python dictionaries become
association lists with unique keys (lookup by key, insertion-order
preserving assignment); the externally defined required-key set
`Configuration._req_user_params()` is a parameter. -/

/-- A configuration value: a string, a list (of e.g. model file names), or
anything else.  `len` applies to values with a length, as in
`len(d["models"])`. -/
inductive CVal where
  | vstr (s : String)
  | vlist (l : List String)
  | vother
deriving Repr, DecidableEq

/-- Python `len(v)` for the value kinds the validation code measures. -/
def CVal.len : CVal → ℕ
  | .vstr s => s.length
  | .vlist l => l.length
  | .vother => 0

/-- A Python dict as an insertion-ordered association list (unique keys). -/
def ConfigDict : Type := List (String × CVal)

/-- Python `d[k]` lookup (`none` when `k not in d`). -/
def ConfigDict.get (d : ConfigDict) (k : String) : Option CVal :=
  match d with
  | [] => none
  | (k', v) :: t => if k' = k then some v else ConfigDict.get t k

/-- Python `d[k] = v`: update in place when the key exists, append otherwise. -/
def ConfigDict.set (d : ConfigDict) (k : String) (v : CVal) : ConfigDict :=
  match d with
  | [] => [(k, v)]
  | (k', v') :: t => if k' = k then (k, v) :: t else (k', v') :: ConfigDict.set t k v

/-- The dictionary after the `fit_type` defaulting and the backward-compatible
`"bmc"` → `"mh"` rename (lines 183–191). -/
def effectiveDict (d : ConfigDict) : ConfigDict :=
  let d1 := if (d.get "fit_type").isNone then d.set "fit_type" (.vstr "de") else d
  if d1.get "fit_type" = some (.vstr "bmc") then d1.set "fit_type" (.vstr "mh") else d1

/-- `[k for k in req_user_params if k not in d.keys()]` (lines 197–200). -/
def missingKeys (reqUserParams : List String) (d : ConfigDict) : List String :=
  reqUserParams.filter (fun k => (d.get k).isNone)

/-- The validation prefix of `CustomConfiguration.__init__` (lines 175–204):
reject a missing or empty model specification, default and rename
`fit_type`, and reject missing required user parameters unless the fit type
is `"check"`.  An `UnspecifiedConfigurationKeyError` is embedded as
`Except.error` carrying the message; on success the (possibly updated)
dictionary is handed to the framework's loading steps. -/
def CustomConfiguration.validate (reqUserParams : List String) (d : ConfigDict) :
    Except String ConfigDict :=
  match d.get "models" with
  | none => .error "'model' must be specified in the configuration file."
  | some v =>
    if v.len = 0 then
      .error "'model' must be specified in the configuration file."
    else
      let d := effectiveDict d
      if missingKeys reqUserParams d ≠ [] ∧ d.get "fit_type" ≠ some (.vstr "check") then
        .error ("The following configuration keys must be specified:\n\t"
          ++ String.intercalate "," (missingKeys reqUserParams d))
      else
        .ok d

/-! ### Futures and `MockClient` (`custom_classes.py`, lines 287–321)

A `concurrent.futures.Future` is either pending or resolved, and a resolved
future carries either a value or a raised exception.  Python callables that
may raise are embedded as functions into `Except`. -/

deriving instance DecidableEq for Except

structure Future (ε α : Type) where
  /-- `none` while pending; `some (.ok v)` after `set_result(v)`;
  `some (.error e)` after `set_exception(e)`. -/
  resolved : Option (Except ε α)
deriving Repr, DecidableEq

/-- `concurrent.futures.Future()`: a fresh, pending future. -/
def Future.pending : Future ε α := ⟨none⟩

/-- `future.set_result(v)`. -/
def Future.set_result (_ : Future ε α) (v : α) : Future ε α := ⟨some (.ok v)⟩

/-- `MockClient.submit(func, *args)` (lines 295–303): call the function
immediately — any exception it raises propagates out of `submit` — and wrap
the value in an already-resolved future. -/
def MockClient.submit (func : γ → Except ε α) (args : γ) : Except ε (Future ε α) :=
  let future : Future ε α := Future.pending
  match func args with
  | .error e => .error e
  | .ok v => .ok (future.set_result v)

/-- `MockClient.scatter(data, ...)` (lines 305–317): ignore everything and
return the placeholder token list `[None]`. -/
def MockClient.scatter (_ : γ) : List (Option α) := [none]

/-! ### `new_custom_as_completed` (`custom_classes.py`, lines 324–368)

The monkeypatched completion iterator: a list of futures drained from the
front.  One `__next__` call is a pure state transition paired with an
observable outcome: `StopIteration`, a yielded future, a yielded
(future, result) pair, an exception re-raised by `future.result()`, or a
block on a pending future. -/

structure new_custom_as_completed (ε α : Type) where
  futures : List (Future ε α)
  with_results : Bool
deriving Repr, DecidableEq

/-- `new_custom_as_completed.__init__` (lines 334–347): `None` becomes the
empty list, anything else is copied with `list(futures)`. -/
def new_custom_as_completed.init (futures : Option (List (Future ε α)))
    (with_results : Bool) : new_custom_as_completed ε α :=
  { futures := futures.getD [], with_results := with_results }

/-- `new_custom_as_completed.update` (lines 349–354): append the given
futures one by one. -/
def new_custom_as_completed.update (s : new_custom_as_completed ε α)
    (futures : List (Future ε α)) : new_custom_as_completed ε α :=
  { s with futures := s.futures ++ futures }

/-- Observable outcome of one `__next__` call. -/
inductive IterOutcome (ε α : Type) where
  /-- `raise StopIteration()`. -/
  | stopIter
  /-- `return future`. -/
  | yielded (f : Future ε α)
  /-- `return (future, future.result())`. -/
  | yieldedPair (f : Future ε α) (v : α)
  /-- `future.result()` re-raised the stored exception. -/
  | raised (e : ε)
  /-- `future.result()` blocked on a pending future. -/
  | blocked
deriving Repr, DecidableEq

/-- `new_custom_as_completed.__next__` (lines 356–362): raise
`StopIteration` on an empty list, otherwise pop the first future and yield
it, paired with its result when `with_results` is set. -/
def new_custom_as_completed.next (s : new_custom_as_completed ε α) :
    IterOutcome ε α × new_custom_as_completed ε α :=
  match s.futures with
  | [] => (.stopIter, s)
  | f :: rest =>
    let s' := { s with futures := rest }
    if s.with_results then
      match f.resolved with
      | some (.ok v) => (.yieldedPair f v, s')
      | some (.error e) => (.raised e, s')
      | none => (.blocked, s')
    else (.yielded f, s')

/-- Iterate `__next__` up to `fuel` times, recording the outcomes and
stopping after a `StopIteration`. -/
def new_custom_as_completed.runAll :
    ℕ → new_custom_as_completed ε α → List (IterOutcome ε α)
  | 0, _ => []
  | fuel + 1, s =>
    match s.next with
    | (.stopIter, _) => [.stopIter]
    | (o, s') => o :: new_custom_as_completed.runAll fuel s'

/-- The futures `MockClient.submit` produces: resolved with a value. -/
def resolvedFutures (vs : List α) : List (Future ε α) :=
  vs.map (fun v => ⟨some (.ok v)⟩)

/-! ### Algorithm dispatch (`interface.py`, `run_simple_optimization`)

`run_simple_optimization` (lines 389–456) builds the configuration, selects
the algorithm class by `param_dict["fit_type"]`, and only afterwards runs it
(`alg.run`, line 447).  The `assert` statements guarding the MCMC branches
execute during selection, before any run.  The algorithm classes are
external; the embedding records which one was constructed.  The settings
read by this dispatch are the pydantic-validated integers of the
configuration schema. -/

inductive PybnfAlgorithm where
  | differentialEvolution
  | asynchronousDifferentialEvolution
  | scatterSearch
  | particleSwarm
  /-- `BasicBayesMCMCAlgorithm(config, sa=flag)`. -/
  | basicBayesMCMC (sa : Bool)
  | adaptiveMCMC
deriving Repr, DecidableEq

/-- The entries of `param_dict` read by the dispatch `match` statement. -/
structure RunSettings where
  fit_type : String
  burn_in : ℕ
  sample_every : ℕ
  adaptive : ℕ
  max_iterations : ℕ
deriving Repr, DecidableEq

/-- The `match param_dict["fit_type"]` dispatch of `run_simple_optimization`
(lines 401–426), including its `assert` guards (a failed `assert` raises
`AssertionError`, embedded as an error; the selected algorithm is run only
after this returns successfully). -/
def selectAlgorithm (p : RunSettings) : Except String PybnfAlgorithm :=
  match p.fit_type with
  | "de" => .ok .differentialEvolution
  | "ade" => .ok .asynchronousDifferentialEvolution
  | "ss" => .ok .scatterSearch
  | "pso" => .ok .particleSwarm
  | "mh" =>
    if p.burn_in ≤ p.max_iterations then
      if p.sample_every ≤ p.max_iterations then .ok (.basicBayesMCMC false)
      else .error "AssertionError"
    else .error "AssertionError"
  | "pt" =>
    if p.burn_in ≤ p.max_iterations then
      if p.sample_every ≤ p.max_iterations then .ok (.basicBayesMCMC false)
      else .error "AssertionError"
    else .error "AssertionError"
  | "sa" => .ok (.basicBayesMCMC true)
  | "am" =>
    if p.burn_in ≤ p.max_iterations then
      if p.sample_every ≤ p.max_iterations then
        if p.adaptive ≤ p.max_iterations then .ok .adaptiveMCMC
        else .error "AssertionError"
      else .error "AssertionError"
    else .error "AssertionError"
  | ft => .error ("Unknown fit type: " ++ ft)

/-! ### `parse_outputs` (`interface.py`, lines 459–482)

Reads `Results/sorted_params_final.txt` (and, for the `"mh"`/`"pt"` fit
types, one credible-interval file per configured interval) and assembles a
`scipy.optimize.OptimizeResult`.  The file reads themselves are external
I/O; the embedding takes the parsed tabular contents as arguments. -/

structure OptimizeResult where
  success : Bool
  /-- `results.iloc[0, 3:]`: best parameter vector. -/
  x : List ℚ
  /-- `results.iloc[0, 2]`: best objective value (dict key `"fun"`). -/
  fun_value : ℚ
  /-- The `credible<N>` tables, one per configured interval. -/
  credible : List (ℕ × List (List ℚ))
deriving Repr, DecidableEq

/-- `parse_outputs(config_dir)` (lines 459–482), with the parsed contents of
`sorted_params_final.txt` (first argument a row-major table) and a map from
interval to the parsed `credible<N>_final.txt` table. -/
def parse_outputs (fit_type : String) (credible_intervals : List ℕ)
    (sorted_params_final : List (List ℚ))
    (credibleTable : ℕ → List (List ℚ)) : OptimizeResult :=
  { success := true
    x := (sorted_params_final.headD []).drop 3
    fun_value := (sorted_params_final.headD []).getD 2 0
    credible :=
      if fit_type = "mh" ∨ fit_type = "pt" then
        credible_intervals.map (fun i => (i, credibleTable i))
      else [] }

/-- The model-specification check of `CustomConfiguration.__init__` (line
179): `"models" not in d or len(d["models"]) == 0`. -/
def modelsBad (d : ConfigDict) : Bool :=
  match d.get "models" with
  | none => true
  | some v => v.len == 0

/-! ## Helper lemmas -/

theorem strStartsWith_xname (i : ℕ) : strStartsWith (xname i) "x" = true := by
  simp [strStartsWith, xname, List.isPrefixOf]

theorem strStartsWith_yname (i : ℕ) : strStartsWith (yname i) "x" = false := by
  simp [strStartsWith, yname, List.isPrefixOf]

theorem pyEnumerate_length (l : List α) (n : ℕ) : (pyEnumerate l n).length = l.length := by
  induction l generalizing n with
  | nil => rfl
  | cons a t ih => simp [pyEnumerate, ih]

theorem pyEnumerate_append (l₁ l₂ : List α) (n : ℕ) :
    pyEnumerate (l₁ ++ l₂) n = pyEnumerate l₁ n ++ pyEnumerate l₂ (n + l₁.length) := by
  induction l₁ generalizing n with
  | nil => simp [pyEnumerate]
  | cons a t ih => simp [pyEnumerate, ih, Nat.add_comm, Nat.add_assoc, Nat.add_left_comm]

theorem mem_pyEnumerate {p : ℕ × α} {l : List α} {n : ℕ} (h : p ∈ pyEnumerate l n) :
    p.2 ∈ l := by
  induction l generalizing n with
  | nil => simp [pyEnumerate] at h
  | cons a t ih =>
    simp only [pyEnumerate, List.mem_cons] at h
    rcases h with h | h
    · subst h; simp
    · exact List.mem_cons_of_mem _ (ih h)

theorem filter_pyEnumerate_pos {q : α → Bool} {l : List α} (h : ∀ a ∈ l, q a = true)
    (n : ℕ) : (pyEnumerate l n).filter (fun p => q p.2) = pyEnumerate l n := by
  induction l generalizing n with
  | nil => rfl
  | cons a t ih =>
    simp only [pyEnumerate, List.filter_cons]
    rw [h a (List.mem_cons_self a t), if_pos rfl,
      ih (fun a ha => h a (List.mem_cons_of_mem _ ha))]

theorem filter_pyEnumerate_neg {q : α → Bool} {l : List α} (h : ∀ a ∈ l, q a = false)
    (n : ℕ) : (pyEnumerate l n).filter (fun p => q p.2) = [] := by
  induction l generalizing n with
  | nil => rfl
  | cons a t ih =>
    simp only [pyEnumerate, List.filter_cons]
    rw [h a (List.mem_cons_self a t)]
    simp only [Bool.false_eq_true, if_false]
    exact ih (fun a ha => h a (List.mem_cons_of_mem _ ha)) _

theorem map_fst_pyEnumerate (l : List α) (n : ℕ) :
    (pyEnumerate l n).map Prod.fst = List.range' n l.length := by
  induction l generalizing n with
  | nil => rfl
  | cons a t ih => simp [pyEnumerate, List.range'_succ, ih]

theorem map_getD_range_append (xs rest : List ℚ) :
    (List.range xs.length).map (fun k => (xs ++ rest).getD k 0) = xs := by
  induction xs with
  | nil => rfl
  | cons a t ih =>
    simp only [List.length_cons, List.range_succ_eq_map, List.map_cons, List.map_map]
    refine List.cons_eq_cons.mpr ⟨rfl, ?_⟩
    rw [show ((fun k => ((a :: t) ++ rest).getD k 0) ∘ Nat.succ)
        = (fun k => (t ++ rest).getD k 0) from funext (fun k => by
          simp [List.getD_cons_succ])]
    exact ih

theorem map_getD_range'_cons (c : ℚ) (xs rest : List ℚ) :
    (List.range' 1 xs.length).map (fun k => (c :: (xs ++ rest)).getD k 0) = xs := by
  have h1 : List.range' 1 xs.length = (List.range xs.length).map (fun k => k + 1) := by
    rw [List.range'_eq_map_range]
    exact List.map_congr_left (fun k _ => Nat.add_comm 1 k)
  rw [h1, List.map_map]
  rw [show ((fun k => (c :: (xs ++ rest)).getD k 0) ∘ fun k => k + 1)
      = (fun k => (xs ++ rest).getD k 0) from funext (fun k => by
        simp [List.getD_cons_succ])]
  exact map_getD_range_append xs rest

/-- The column indices `get_data_arr` selects from a table built by
`from_x_and_y` are exactly `1, …, ncols_x`: `"time"` and the `y`-columns
are filtered out, the `x`-columns are kept. -/
theorem data_indxs_build (mx my : List (List ℚ)) :
    (((CustomData.build_from_x_y mx my).headers.filter
        (fun p => strStartsWith p.2 "x")).map Prod.fst)
      = List.range' 1 (mx.headD []).length := by
  simp only [CustomData.build_from_x_y, CustomData.headers]
  rw [show ("time" :: ((List.range (mx.headD []).length).map xname
        ++ (List.range (my.headD []).length).map yname))
      = ["time"] ++ ((List.range (mx.headD []).length).map xname
        ++ (List.range (my.headD []).length).map yname) from rfl]
  rw [pyEnumerate_append, pyEnumerate_append]
  simp only [List.filter_append]
  rw [show pyEnumerate ["time"] 0 = [(0, "time")] from rfl]
  rw [show ([((0 : ℕ), "time")].filter (fun p => strStartsWith p.2 "x")) = [] from rfl]
  rw [filter_pyEnumerate_pos (q := fun s => strStartsWith s "x")
      (by intro a ha; simp only [List.mem_map] at ha; obtain ⟨i, _, rfl⟩ := ha
          exact strStartsWith_xname i)]
  rw [filter_pyEnumerate_neg (q := fun s => strStartsWith s "x")
      (by intro a ha; simp only [List.mem_map] at ha; obtain ⟨i, _, rfl⟩ := ha
          exact strStartsWith_yname i)]
  simp [map_fst_pyEnumerate]

theorem sel_rows (k : ℕ) :
    ∀ (mx my : List (List ℚ)) (n : ℕ), mx.length ≤ my.length →
    (∀ r ∈ mx, r.length = k) →
    ((pyEnumerate (mx.zip my) n).map
      (fun p => (List.range' 1 k).map
        (fun idx => (((p.1 : ℚ)) :: (p.2.1 ++ p.2.2)).getD idx 0))) = mx := by
  intro mx
  induction mx with
  | nil => intro my n _ _; simp [pyEnumerate]
  | cons x t ih =>
    intro my n hlen hk
    cases my with
    | nil => simp at hlen
    | cons y s =>
      simp only [List.zip_cons_cons, pyEnumerate, List.map_cons]
      refine List.cons_eq_cons.mpr ⟨?_, ?_⟩
      · have hx : x.length = k := hk x (List.mem_cons_self x t)
        rw [← hx]
        exact map_getD_range'_cons _ x y
      · exact ih s (n + 1) (by simpa using hlen)
          (fun r hr => hk r (List.mem_cons_of_mem _ hr))

theorem get_data_arr_build (mx my : List (List ℚ))
    (hrect : ∀ r ∈ mx, r.length = (mx.headD []).length)
    (hlen : mx.length ≤ my.length) :
    (CustomData.build_from_x_y mx my).get_data_arr = mx := by
  unfold CustomData.get_data_arr
  rw [data_indxs_build]
  show ((CustomData.build_from_x_y mx my)._data.map
    (fun row => (List.range' 1 (mx.headD []).length).map (fun i => row.getD i 0))) = mx
  simp only [CustomData.build_from_x_y]
  rw [List.map_map]
  exact sel_rows _ mx my 0 hlen hrect

theorem NpArr.rows_promote (a : NpArr) : a.promote.rows = a.rows := by
  cases a <;> simp [NpArr.promote, NpArr.rows]

theorem NpArr.ndim_promote_le (a : NpArr) : 2 < a.promote.ndim ↔ 2 < a.ndim := by
  cases a <;> simp [NpArr.promote, NpArr.ndim]

theorem digitChar_toNat_lt {a b : ℕ} (hab : a < b) (hb : b ≤ 9) :
    (digitChar a).toNat < (digitChar b).toNat := by
  interval_cases b <;> interval_cases a <;> decide

theorem numDigitsAux_le : ∀ (fuel n k : ℕ), n ≤ fuel → n < 10 ^ (k + 1) →
    numDigitsAux fuel n ≤ k + 1 := by
  intro fuel
  induction fuel with
  | zero => intro n k _ _; simp [numDigitsAux]
  | succ f ih =>
    intro n k hn hk
    simp only [numDigitsAux]
    by_cases h10 : n < 10
    · simp [h10]
    · rw [if_neg h10]
      cases k with
      | zero => omega
      | succ k' =>
        have hdiv : n / 10 ≤ f := by omega
        have hlt : n / 10 < 10 ^ (k' + 1) := by
          rw [Nat.div_lt_iff_lt_mul (by norm_num)]
          calc n < 10 ^ (k' + 2) := hk
            _ = 10 ^ (k' + 1) * 10 := by ring
        have := ih (n / 10) k' hdiv hlt
        omega

theorem numDigits_le_ten {n : ℕ} (h : n < 10 ^ 10) : numDigits n ≤ 10 :=
  numDigitsAux_le n n 9 le_rfl h

theorem py010_of_lt {n : ℕ} (h : n < 10 ^ 10) :
    py010 n = (decDigitsBE 10 n).map digitChar := by
  unfold py010
  rw [Nat.max_eq_left (numDigits_le_ten h)]

/-- Fixed-width zero-padded decimal strings compare lexicographically the
way the numbers they denote compare. -/
theorem pyStrLtChars_decDigits : ∀ (w i j : ℕ), i < j → j < 10 ^ w →
    pyStrLtChars ((decDigitsBE w i).map digitChar) ((decDigitsBE w j).map digitChar)
      = true := by
  intro w
  induction w with
  | zero => intro i j hij hj; omega
  | succ w ih =>
    intro i j hij hj
    simp only [decDigitsBE, List.map_cons, pyStrLtChars]
    have hqj : j / 10 ^ w ≤ 9 := by
      have : j / 10 ^ w < 10 := by
        rw [Nat.div_lt_iff_lt_mul (Nat.pos_pow_of_pos w (by norm_num))]
        calc j < 10 ^ (w + 1) := hj
          _ = 10 * 10 ^ w := by ring
      omega
    have hqle : i / 10 ^ w ≤ j / 10 ^ w := Nat.div_le_div_right (le_of_lt hij)
    by_cases hq : i / 10 ^ w < j / 10 ^ w
    · rw [if_pos (digitChar_toNat_lt hq hqj)]
    · have heq : i / 10 ^ w = j / 10 ^ w := le_antisymm hqle (not_lt.mp hq)
      rw [heq]
      rw [if_neg (lt_irrefl _), if_neg (lt_irrefl _)]
      apply ih
      · have hi := Nat.div_add_mod i (10 ^ w)
        have hj' := Nat.div_add_mod j (10 ^ w)
        rw [heq] at hi
        omega
      · exact Nat.mod_lt _ (Nat.pos_pow_of_pos w (by norm_num))

theorem runAll_resolved {ε α : Type} (b : Bool) (vs : List α) :
    new_custom_as_completed.runAll (vs.length + 1)
      ({ futures := resolvedFutures vs, with_results := b } : new_custom_as_completed ε α)
      = (vs.map (fun v => if b then IterOutcome.yieldedPair ⟨some (.ok v)⟩ v
            else .yielded ⟨some (.ok v)⟩)) ++ [.stopIter] := by
  induction vs with
  | nil => cases b <;> rfl
  | cons v t ih =>
    cases b
    · simp only [resolvedFutures, List.map_cons, List.length_cons, if_neg,
        new_custom_as_completed.runAll, new_custom_as_completed.next]
      simpa [resolvedFutures] using ih
    · simp only [resolvedFutures, List.map_cons, List.length_cons, if_pos,
        new_custom_as_completed.runAll, new_custom_as_completed.next]
      simpa [resolvedFutures] using ih

/-! ## Claims -/

/-- Claim C1: for every pair of 2D arrays with equal row count (rows of `x`
rectangular, as numpy guarantees), building the labeled table with
`CustomData.from_x_and_y` and extracting the input sub-matrix with
`get_data_arr` returns exactly the original `x`, same values in the same
column order. -/
theorem claim_C1_roundtrip (mx my : List (List ℚ))
    (hlen : mx.length = my.length)
    (hrect : ∀ r ∈ mx, r.length = (mx.headD []).length) :
    (CustomData.from_x_and_y (.d2 mx) (.d2 my)).map CustomData.get_data_arr
      = Except.ok mx := by
  unfold CustomData.from_x_and_y
  simp only [NpArr.promote, NpArr.rows, NpArr.ndim, NpArr.to2d]
  rw [if_neg (by simpa using hlen)]
  rw [if_neg (by simp)]
  simp only [Except.map]
  rw [get_data_arr_build mx my hrect (le_of_eq hlen)]

theorem claim_C1_witness :
    (CustomData.from_x_and_y (.d2 [[1, 2], [3, 4], [5, 6]]) (.d2 [[7], [8], [9]])).map
      CustomData.get_data_arr = Except.ok [[1, 2], [3, 4], [5, 6]] :=
  claim_C1_roundtrip [[1, 2], [3, 4], [5, 6]] [[7], [8], [9]] (by decide) (by decide)

/-- Claim C2, counterexample to the claim as stated: with fit type
`"check"` the claim predicts that no required-key validation happens, but
the constructor still rejects a dictionary whose model specification is
missing — and with a fixed message that does not name the missing key. -/
theorem claim_C2_counterexample :
    CustomConfiguration.validate ["population_size"] [("fit_type", CVal.vstr "check")]
      = .error "'model' must be specified in the configuration file." := by rfl

/-- Claim C2 as amended: the model-specification check is unconditional
(its error message is fixed); the required-user-parameter check applies
exactly when the (defaulted, `"bmc"`-renamed) fit type is not `"check"`,
and its error message names exactly the missing keys. -/
theorem claim_C2_amended (req : List String) (d : ConfigDict) :
    (modelsBad d = true →
      CustomConfiguration.validate req d
        = .error "'model' must be specified in the configuration file.") ∧
    (modelsBad d = false → missingKeys req (effectiveDict d) ≠ [] →
      (effectiveDict d).get "fit_type" ≠ some (.vstr "check") →
      CustomConfiguration.validate req d
        = .error ("The following configuration keys must be specified:\n\t"
            ++ String.intercalate "," (missingKeys req (effectiveDict d)))) ∧
    (modelsBad d = false →
      (missingKeys req (effectiveDict d) = [] ∨
        (effectiveDict d).get "fit_type" = some (.vstr "check")) →
      CustomConfiguration.validate req d = .ok (effectiveDict d)) := by
  refine ⟨?_, ?_, ?_⟩
  · intro hbad
    unfold modelsBad at hbad
    unfold CustomConfiguration.validate
    cases hm : d.get "models" with
    | none => rfl
    | some v =>
      rw [hm] at hbad
      simp only [beq_iff_eq] at hbad
      simp [hbad]
  · intro hgood hmiss hft
    unfold modelsBad at hgood
    unfold CustomConfiguration.validate
    cases hm : d.get "models" with
    | none => rw [hm] at hgood; simp at hgood
    | some v =>
      rw [hm] at hgood
      simp only [beq_eq_false_iff_ne, ne_eq] at hgood
      simp only [hm]
      rw [if_neg hgood]
      rw [if_pos ⟨hmiss, hft⟩]
  · intro hgood hok
    unfold modelsBad at hgood
    unfold CustomConfiguration.validate
    cases hm : d.get "models" with
    | none => rw [hm] at hgood; simp at hgood
    | some v =>
      rw [hm] at hgood
      simp only [beq_eq_false_iff_ne, ne_eq] at hgood
      simp only [hm]
      rw [if_neg hgood]
      rw [if_neg (by
        rintro ⟨h1, h2⟩
        rcases hok with h | h
        · exact h1 h
        · exact h2 h)]

theorem claim_C2_witness :
    CustomConfiguration.validate ["population_size"]
        [("models", CVal.vstr "np"), ("fit_type", CVal.vstr "de")]
      = .error "The following configuration keys must be specified:\n\tpopulation_size" :=
  (claim_C2_amended ["population_size"]
      [("models", CVal.vstr "np"), ("fit_type", CVal.vstr "de")]).2.1
    (by rfl) (by decide) (by decide)

/-- Claim C3: `MockClient.submit` executes the callable immediately and
returns an already-resolved future whose result is the callable's return
value; an exception raised by the callable propagates out of `submit`
exactly as from a direct call with the same arguments. -/
theorem claim_C3_submit {γ ε α : Type} (func : γ → Except ε α) (args : γ) :
    (∀ v, func args = .ok v →
      MockClient.submit func args = .ok ⟨some (.ok v)⟩) ∧
    (∀ e, func args = .error e → MockClient.submit func args = .error e) := by
  constructor
  · intro v hv
    simp [MockClient.submit, hv, Future.set_result]
  · intro e he
    simp [MockClient.submit, he]

theorem claim_C3_witness :
    MockClient.submit (fun n : ℕ => if n = 0 then Except.error "boom" else .ok (n + 1)) 0
        = .error "boom" ∧
    MockClient.submit (fun n : ℕ => if n = 0 then Except.error "boom" else .ok (n + 1)) 3
        = .ok ⟨some (.ok 4)⟩ :=
  ⟨(claim_C3_submit _ 0).2 "boom" rfl, (claim_C3_submit _ 3).1 4 rfl⟩

/-- Claim C4: for the MCMC-family fit types that carry burn-in and
sample-every settings (`"mh"`, `"pt"`, `"am"`), the dispatch in
`run_simple_optimization` rejects by assertion failure any configuration
with `burn_in > max_iterations` or `sample_every > max_iterations`; the
error means no algorithm object is produced, so the rejection precedes the
`alg.run` call that follows selection. -/
theorem claim_C4_assert_bounds (p : RunSettings)
    (hft : p.fit_type = "mh" ∨ p.fit_type = "pt" ∨ p.fit_type = "am")
    (hbad : p.max_iterations < p.burn_in ∨ p.max_iterations < p.sample_every) :
    selectAlgorithm p = .error "AssertionError" := by
  obtain ⟨ft, bi, se, ad, mi⟩ := p
  simp only at hft hbad
  rcases hft with h | h | h <;> subst h <;> simp only [selectAlgorithm] <;>
    rcases hbad with h2 | h2 <;>
    first
    | rw [if_neg (by omega)]
    | (by_cases hb : bi ≤ mi
       · rw [if_pos hb, if_neg (by omega)]
       · rw [if_neg hb])

theorem claim_C4_witness :
    selectAlgorithm ⟨"mh", 200, 100, 0, 50⟩ = .error "AssertionError" :=
  claim_C4_assert_bounds ⟨"mh", 200, 100, 0, 50⟩ (Or.inl rfl) (Or.inl (by decide))

/-- Claim C5: `CustomData.from_x_and_y` raises exactly when the row counts
differ (unchanged by the 1D-to-column promotion) or an argument has
dimensionality greater than 2; on every other 1D-or-2D input it succeeds. -/
theorem claim_C5_error_iff (x y : NpArr) :
    (∃ e, CustomData.from_x_and_y x y = .error e) ↔
      (x.rows ≠ y.rows ∨ 2 < x.ndim ∨ 2 < y.ndim) := by
  unfold CustomData.from_x_and_y
  by_cases h1 : x.promote.rows ≠ y.promote.rows
  · rw [if_pos h1]
    simp only [NpArr.rows_promote] at h1
    simp [h1]
  · rw [if_neg h1]
    simp only [NpArr.rows_promote] at h1
    push_neg at h1
    by_cases h2 : 2 < x.promote.ndim ∨ 2 < y.promote.ndim
    · rw [if_pos h2]
      rw [NpArr.ndim_promote_le, NpArr.ndim_promote_le] at h2
      simp [h1, h2]
    · rw [if_neg h2]
      rw [NpArr.ndim_promote_le, NpArr.ndim_promote_le] at h2
      push_neg at h2
      simp [h1, h2.1, h2.2, not_lt.mpr h2.1, not_lt.mpr h2.2]

/-- Claim C6: for `x` of shape (10, 3) and `y` of shape (10, 1), the adapter
produces a table with exactly 5 columns — time, then the 3 input columns,
then the 1 output column — and 10 rows. -/
theorem claim_C6_shape (mx my : List (List ℚ))
    (hmx : mx.length = 10) (hmy : my.length = 10)
    (hx : ∀ r ∈ mx, r.length = 3) (hy : ∀ r ∈ my, r.length = 1) :
    ∃ d, CustomData.from_x_and_y (.d2 mx) (.d2 my) = .ok d ∧
      d.colnames.length = 5 ∧ d._data.length = 10 ∧
      ∀ row ∈ d._data, row.length = 5 := by
  refine ⟨CustomData.build_from_x_y mx my, ?_, ?_, ?_, ?_⟩
  · unfold CustomData.from_x_and_y
    simp only [NpArr.promote, NpArr.rows, NpArr.ndim, NpArr.to2d]
    rw [if_neg (by simp [hmx, hmy]), if_neg (by simp)]
  · obtain ⟨r, t, rfl⟩ : ∃ r t, mx = r :: t := by
      cases mx with
      | nil => simp at hmx
      | cons r t => exact ⟨r, t, rfl⟩
    obtain ⟨s, u, rfl⟩ : ∃ s u, my = s :: u := by
      cases my with
      | nil => simp at hmy
      | cons s u => exact ⟨s, u, rfl⟩
    have hr : r.length = 3 := hx r (List.mem_cons_self _ _)
    have hs : s.length = 1 := hy s (List.mem_cons_self _ _)
    simp [CustomData.build_from_x_y, hr, hs]
  · simp only [CustomData.build_from_x_y]
    rw [List.length_map, pyEnumerate_length, List.length_zip, hmx, hmy]
    rfl
  · intro row hrow
    simp only [CustomData.build_from_x_y, List.mem_map] at hrow
    obtain ⟨p, hp, rfl⟩ := hrow
    have h2 := mem_pyEnumerate hp
    have := List.of_mem_zip h2
    simp only [List.length_cons, List.length_append]
    rw [hx _ this.1, hy _ this.2]

theorem claim_C6_witness :
    ∃ d, CustomData.from_x_and_y
        (.d2 [[1, 2, 3], [4, 5, 6], [7, 8, 9], [10, 11, 12], [13, 14, 15],
              [16, 17, 18], [19, 20, 21], [22, 23, 24], [25, 26, 27], [28, 29, 30]])
        (.d2 [[1], [2], [3], [4], [5], [6], [7], [8], [9], [10]]) = .ok d ∧
      d.colnames.length = 5 ∧ d._data.length = 10 ∧
      ∀ row ∈ d._data, row.length = 5 :=
  claim_C6_shape _ _ (by decide) (by decide) (by decide) (by decide)

/-- Claim C7: draining the monkeypatched completion iterator over resolved
futures — both those given at construction and those appended later via
`update` — yields exactly the inserted futures in insertion order and then
raises `StopIteration`; with `with_results` set it yields each future
paired with its result. -/
theorem claim_C7_insertion_order {ε α : Type} (vs ws : List α) :
    (new_custom_as_completed.runAll ((vs ++ ws).length + 1)
       ((new_custom_as_completed.init (some (resolvedFutures vs)) false).update
         (resolvedFutures ws)) : List (IterOutcome ε α))
      = ((vs ++ ws).map (fun v => .yielded (⟨some (.ok v)⟩ : Future ε α)))
          ++ [.stopIter] ∧
    new_custom_as_completed.runAll ((vs ++ ws).length + 1)
       ((new_custom_as_completed.init (some (resolvedFutures vs)) true).update
         (resolvedFutures ws))
      = ((vs ++ ws).map (fun v => .yieldedPair (⟨some (.ok v)⟩ : Future ε α) v))
          ++ [.stopIter] := by
  have hupd : ∀ b : Bool,
      ((new_custom_as_completed.init (some (resolvedFutures vs)) b).update
        (resolvedFutures ws) : new_custom_as_completed ε α)
        = ⟨resolvedFutures (vs ++ ws), b⟩ := by
    intro b
    simp [new_custom_as_completed.init, new_custom_as_completed.update, resolvedFutures]
  constructor
  · rw [hupd, runAll_resolved]
    simp [resolvedFutures]
  · rw [hupd, runAll_resolved]
    simp

/-- Claim C8, counterexample to the claim as stated: the zero padding has
fixed width 10, so index order and lexicographic order disagree once an
index needs 11 digits — `"x9999999999"` does not sort before
`"x10000000000"`. -/
theorem claim_C8_counterexample :
    (9999999999 < 10000000000) ∧
      pyStrLt (xname 9999999999) (xname 10000000000) = false := by decide

/-- Claim C8 as amended: for indices below `10^10` (the padding width), the
generated column names within one prefix sort lexicographically exactly in
numeric index order. -/
theorem claim_C8_amended (i j : ℕ) (hij : i < j) (hj : j < 10 ^ 10) :
    pyStrLt (xname i) (xname j) = true ∧ pyStrLt (yname i) (yname j) = true := by
  have hi : i < 10 ^ 10 := lt_trans hij hj
  have hcore := pyStrLtChars_decDigits 10 i j hij hj
  constructor
  · show pyStrLtChars ('x' :: py010 i) ('x' :: py010 j) = true
    simp only [pyStrLtChars, lt_irrefl, if_false]
    rw [py010_of_lt hi, py010_of_lt hj]
    exact hcore
  · show pyStrLtChars ('y' :: py010 i) ('y' :: py010 j) = true
    simp only [pyStrLtChars, lt_irrefl, if_false]
    rw [py010_of_lt hi, py010_of_lt hj]
    exact hcore

theorem claim_C8_witness :
    pyStrLt (xname 2) (xname 5) = true ∧ pyStrLt (yname 2) (yname 5) = true :=
  claim_C8_amended 2 5 (by decide) (by decide)

/-- Claim C9: `copy_with_param_set` returns a model bound to the given
parameter set while every other field is that of the original; the
embedding is purely functional (mirroring the `copy.deepcopy` value
semantics of the source), so the original model value `m` is unchanged by
construction. -/
theorem claim_C9_copy (m : NpModel) (p : ParamSet) :
    (m.copy_with_param_set p).pset = some p ∧
    (m.copy_with_param_set p).func = m.func ∧
    (m.copy_with_param_set p).data = m.data ∧
    (m.copy_with_param_set p).param_names = m.param_names ∧
    (m.copy_with_param_set p).suffixes = m.suffixes ∧
    (m.copy_with_param_set p).mutants = m.mutants ∧
    (m.copy_with_param_set p).file_path = m.file_path ∧
    (m.copy_with_param_set p).name = m.name :=
  ⟨rfl, rfl, rfl, rfl, rfl, rfl, rfl, rfl⟩

/-- Claim C10: `parse_outputs` sets the result's success field to `true`
unconditionally, for every fit type, interval list and parsed file
content. -/
theorem claim_C10_success (fit_type : String) (ci : List ℕ)
    (spf : List (List ℚ)) (ct : ℕ → List (List ℚ)) :
    (parse_outputs fit_type ci spf ct).success = true := rfl
